import Mathlib

/-!
# The `ls` command of mc: listing driver, retry loop, formatter, entry point

A shallow embedding of `src/cmd-ls.go`.

* Effects are made explicit: every function that prints, sleeps or talks to a
  storage client takes a `World` and returns the new one. A `World` is the list
  of events performed so far (`trace`) and a logical clock (`clock`) counting the
  calls made to the outside (client construction and listing calls); what the
  outside answers is a function of the clock, so successive listing calls on the
  same client may answer differently.
* Go strings are Lean strings, `error` values are `Option Error` (`none` is `nil`).
* Everything this file's Go code uses but does not define (retry classification,
  URL resolution, configuration, time and size rendering, the client factory)
  is a field of `Env`.
-/

namespace Mc

/-! ## Errors (package iodine) -/

/-- A non-nil Go `error`: either a primitive error, with the name of its dynamic
type and its message, or an error wrapped by `iodine.New` with its data map. -/
inductive Error where
  | prim (dynType : String) (msg : String)
  | iodine (embedded : Error) (data : List (String × String))
deriving DecidableEq

/-- Function `iodine.New(err, data)`: `nil` stays `nil`, any other error is wrapped together
with `data` (`nil` data is the empty list). -/
def iodine.New (err : Option Error) (data : List (String × String)) : Option Error :=
  match err with
  | none => none
  | some e => some (Error.iodine e data)

/-- Function `iodine.ToError(err)`: the primitive error inside the wrapping. -/
def iodine.ToError : Error → Error
  | Error.prim t m => Error.prim t m
  | Error.iodine e _ => iodine.ToError e

/-- Name of the dynamic type of a primitive error (what a Go type switch inspects). -/
def Error.dynType : Error → String
  | Error.prim t _ => t
  | Error.iodine _ _ => "iodine.Error"

/-- The `Error()` text of an error. -/
def Error.msg : Error → String
  | Error.prim _ m => m
  | Error.iodine e _ => Error.msg e

/-! ## Package strings, os.FileMode, integer conversions -/

/-- Function `strings.HasSuffix(s, suffix)`: whether `s` ends with `suffix`. -/
def strings.HasSuffix (s suffix : String) : Bool :=
  suffix.data.isSuffixOf s.data

/-- Function `strings.TrimSuffix(s, suffix)`: `s` without the trailing `suffix` when it has
one, `s` itself otherwise. -/
def strings.TrimSuffix (s suffix : String) : String :=
  if strings.HasSuffix s suffix then
    String.mk (s.data.take (s.data.length - suffix.data.length))
  else s

/-- Bit `os.ModeDir` of an `os.FileMode` (a `uint32`). -/
def os.ModeDir : Nat := 2 ^ 31
/-- Bit `os.ModeSymlink`. -/
def os.ModeSymlink : Nat := 2 ^ 27
/-- Bit `os.ModeDevice`. -/
def os.ModeDevice : Nat := 2 ^ 26
/-- Bit `os.ModeNamedPipe`. -/
def os.ModeNamedPipe : Nat := 2 ^ 25
/-- Bit `os.ModeSocket`. -/
def os.ModeSocket : Nat := 2 ^ 24
/-- Bit `os.ModeCharDevice`. -/
def os.ModeCharDevice : Nat := 2 ^ 21
/-- Bit `os.ModeIrregular`. -/
def os.ModeIrregular : Nat := 2 ^ 19

/-- Mask `os.ModeType` of the file-type bits. -/
def os.ModeType : Nat :=
  os.ModeDir ||| os.ModeSymlink ||| os.ModeNamedPipe ||| os.ModeSocket |||
    os.ModeDevice ||| os.ModeCharDevice ||| os.ModeIrregular

/-- Method `m.IsDir()` of `os.FileMode`: `m&ModeDir != 0`. -/
def FileMode.IsDir (m : Nat) : Bool := (m &&& os.ModeDir) != 0

/-- Method `m.IsRegular()` of `os.FileMode`: `m&ModeType == 0`. -/
def FileMode.IsRegular (m : Nat) : Bool := (m &&& os.ModeType) == 0

/-- Conversion `uint64(v)` of an `int64`. -/
def uint64 (v : Int) : Nat := (v % 2 ^ 64).toNat

/-- Wrap-around of a mathematical integer into the `int64` range. -/
def wrapInt64 (z : Int) : Int := (z + 2 ^ 63) % 2 ^ 64 - 2 ^ 63

/-- Constant `time.Second`, in nanoseconds. -/
def time.Second : Int := 1000000000

/-- The argument of `time.Sleep` in the retry loop, `time.Duration(i*i) * time.Second`:
a count of nanoseconds, both products taken in 64-bit signed arithmetic (`int` is
64 bits wide, `time.Duration` is an `int64`). -/
def sleepDuration (i : Nat) : Int :=
  wrapInt64 (wrapInt64 ((i : Int) * (i : Int)) * time.Second)

/-! ## Clients, configuration, environment -/

/-- One listed entry (`client.Item`); `FileType` is an `os.FileMode`, `Size` an
`int64`, `Time` an instant. -/
structure Item where
  Name : String
  Time : Int
  Size : Int
  FileType : Nat
deriving DecidableEq

/-- What a listing channel carries (`client.ItemOnChannel`): an item and an error;
the item is meaningful when `Err` is `nil`. -/
structure ItemOnChannel where
  Item : Mc.Item
  Err : Option Error
deriving DecidableEq

/-- A storage client (`client.Client`). `ListSingle t` and `List t` are the finite
contents of the channel returned by a call of `ListSingle()` / `List()` made when
the clock shows `t`. -/
structure Client where
  ListSingle : Nat → List ItemOnChannel
  List : Nat → List ItemOnChannel

/-- Modelled from the spec: the type `hostConfig` is not among the sources; the
spec gives it an endpoint, credentials and an alias name. -/
structure hostConfig where
  endpoint : String
  credentials : String
  aliasName : String
deriving DecidableEq

/-- Modelled from the spec: the configuration returned by `getMcConfig`, of which
the sources use the alias table `Aliases` only. -/
structure mcConfig where
  Aliases : List (String × String)
deriving DecidableEq

/-- The interface `clientMethods`: `getNewClient(targetURL, config, debug)`, called
when the clock shows `t`. -/
structure clientMethods where
  getNewClient : String → hostConfig → Bool → Nat → Except Error Client

/-- Everything `cmd-ls.go` reads or calls without defining it. -/
structure Env where
  /-- Global `globalMaxRetryFlag`, the bound of the retry loop counter: a count (the
  loop `for i := 0; i < globalMaxRetryFlag; i++` treats a negative value as 0). -/
  globalMaxRetryFlag : Nat
  /-- Global `globalDebugFlag`. -/
  globalDebugFlag : Bool
  /-- Function `isValidRetry(err)`: whether the error is worth a retry. -/
  isValidRetry : Error → Bool
  /-- Rendering `date.Local().Format(printDate)`. -/
  formatLocal : Int → String
  /-- Rendering `humanize.IBytes(n)`. -/
  IBytes : Nat → String
  /-- Function `getMcConfig()`. -/
  getMcConfig : Except Error mcConfig
  /-- Function `mustGetMcConfigPath()`. -/
  mustGetMcConfigPath : String
  /-- Function `getURL(arg, aliases)`. -/
  getURL : String → List (String × String) → Except Error String
  /-- Function `getHostConfig(targetURL)`. -/
  getHostConfig : String → Except Error hostConfig
  /-- Function `isURLRecursive(targetURL)`. -/
  isURLRecursive : String → Bool
  /-- Constant `recursiveSeparator`. -/
  recursiveSeparator : String
  /-- The value `mcClientMethods{}`. -/
  mcClientMethods : clientMethods
  /-- The order in which a `range` over a Go map visits its entries: some
  arrangement of the entries, each visited once. -/
  rangeOrder : (m : List (String × hostConfig)) → { l : List (String × hostConfig) // l.Perm m }

/-! ## Events and worlds -/

/-- The presentation helpers of package console, each wrapping a text in markup. -/
inductive Style where
  | Time
  | Size
  | Dir
  | File
  | Retry
deriving DecidableEq

/-- What the program does to the outside. -/
inductive Event where
  /-- A call `fmt.Printf(console.X(...))` (`newline = false`) or
  `fmt.Println(console.X(...))` (`newline = true`) of the formatted `text`. -/
  | stdout (style : Style) (text : String) (newline : Bool)
  /-- A call `time.Sleep(d)`, `d` in nanoseconds. -/
  | sleep (d : Int)
  /-- A call `methods.getNewClient(targetURL, cfg, debug)`. -/
  | getNewClient (targetURL : String) (cfg : hostConfig) (debug : Bool)
  /-- An invocation `doList(clnt, targetURL)` (`recursive = true`) or
  `doListSingle(clnt, targetURL)`, with its one call of `clnt.List()` /
  `clnt.ListSingle()`. -/
  | listing (recursive : Bool) (clnt : Client) (targetURL : String)
  /-- A call `log.Debug.Println(err)`. -/
  | debugLog (err : Option Error)

/-- The events so far, oldest first, and the logical clock. -/
structure World where
  clock : Nat
  trace : List Event

/-- Append one event. -/
def World.emit (w : World) (e : Event) : World :=
  { w with trace := w.trace ++ [e] }

/-- Advance the clock by one outside call. -/
def World.tick (w : World) : World :=
  { w with clock := w.clock + 1 }

/-- The events performed between the earlier world `w` and the later world `w'`. -/
def World.since (w' w : World) : List Event :=
  w'.trace.drop w.trace.length

/-- A call `fmt.Printf(console.X(format, args...))`; `text` is the formatted string.
(The texts printed this way here, a time stamp and a size, hold no `%`.) -/
def fmt.Printf (style : Style) (text : String) (w : World) : World :=
  w.emit (Event.stdout style text false)

/-- A call `fmt.Println(console.X(format, args...))`. -/
def fmt.Println (style : Style) (text : String) (w : World) : World :=
  w.emit (Event.stdout style text true)

/-- A call `time.Sleep(d)`. -/
def time.Sleep (d : Int) (w : World) : World :=
  w.emit (Event.sleep d)

/-- A call `log.Debug.Println(err)`. -/
def log.Debug.Println (err : Option Error) (w : World) : World :=
  w.emit (Event.debugLog err)

/-- Formatting verb `%6s`: the text, left-padded with blanks to six characters. -/
def padLeft6 (s : String) : String :=
  String.mk (List.replicate (6 - s.length) ' ') ++ s

/-! ## printItem, doListSingle, doList -/

/-- Function `printItem` (cmd-ls.go, lines 38-52). -/
def printItem (env : Env) (date : Int) (v : Int) (name : String) (fileType : Nat)
    (w : World) : World :=
  let w1 := fmt.Printf Style.Time ("[" ++ env.formatLocal date ++ "] ") w
  let w2 := fmt.Printf Style.Size (padLeft6 (env.IBytes (uint64 v)) ++ " ") w1
  let w3 :=
    if FileMode.IsDir fileType then
      if strings.HasSuffix name "/" then fmt.Println Style.Dir name w2
      else fmt.Println Style.Dir (name ++ "/") w2
    else w2
  if FileMode.IsRegular fileType then fmt.Println Style.File name w3 else w3

/-- The loop `for itemCh := range ch { ... }` shared by `doListSingle` and `doList`:
stops with the error of the first result whose `Err` is not `nil`, prints the item
of every result before it. Returns the value of `err` after the loop. -/
def rangeItems (env : Env) : List ItemOnChannel → World → Option Error × World
  | [], w => (none, w)
  | itemCh :: rest, w =>
    match itemCh.Err with
    | some e => (some e, w)
    | none =>
      rangeItems env rest
        (printItem env itemCh.Item.Time itemCh.Item.Size itemCh.Item.Name itemCh.Item.FileType w)

/-- Function `doListSingle` (cmd-ls.go, lines 54-67). -/
def doListSingle (env : Env) (clnt : Client) (targetURL : String) (w : World) :
    Option Error × World :=
  let ch := clnt.ListSingle w.clock
  let w0 := (w.emit (Event.listing false clnt targetURL)).tick
  let r := rangeItems env ch w0
  match r.1 with
  | some e => (iodine.New (some e) [("Target", targetURL)], r.2)
  | none => (none, r.2)

/-- Function `doList` (cmd-ls.go, lines 69-82). -/
def doList (env : Env) (clnt : Client) (targetURL : String) (w : World) :
    Option Error × World :=
  let ch := clnt.List w.clock
  let w0 := (w.emit (Event.listing true clnt targetURL)).tick
  let r := rangeItems env ch w0
  match r.1 with
  | some e => (iodine.New (some e) [("Target", targetURL)], r.2)
  | none => (none, r.2)

/-! ## The retry loop, doListSingleCmd, doListCmd -/

/-- The loop
`for i := 0; i < globalMaxRetryFlag && err != nil && isValidRetry(err); i++ { ... }`
of `doListSingleCmd` and `doListCmd`, which differ in the driver `drive` only
(`doListSingle(clnt, targetURL)` or `doList(clnt, targetURL)`). The first argument is
`globalMaxRetryFlag - i`, the number of values the counter may still take; the
result is the value of `err` after the loop. -/
def retryLoop (env : Env) (drive : World → Option Error × World) :
    Nat → Nat → Option Error → World → Option Error × World
  | 0, _, err, w => (err, w)
  | remaining + 1, i, err, w =>
    match err with
    | none => (none, w)
    | some e =>
      if env.isValidRetry e then
        let w1 := fmt.Println Style.Retry ("Retrying ... " ++ toString i) w
        let w2 := time.Sleep (sleepDuration i) w1
        let r := drive w2
        retryLoop env drive remaining (i + 1) r.1 r.2
      else (some e, w)

/-- Function `doListSingleCmd` (cmd-ls.go, lines 137-153). -/
def doListSingleCmd (env : Env) (methods : clientMethods) (targetURL : String)
    (targetConfig : hostConfig) (_debug : Bool) (w : World) : Option Error × World :=
  let w0 := (w.emit (Event.getNewClient targetURL targetConfig env.globalDebugFlag)).tick
  match methods.getNewClient targetURL targetConfig env.globalDebugFlag w.clock with
  | Except.error err => (iodine.New (some err) [("Target", targetURL)], w0)
  | Except.ok clnt =>
    let r := doListSingle env clnt targetURL w0
    let r2 := retryLoop env (doListSingle env clnt targetURL) env.globalMaxRetryFlag 0 r.1 r.2
    match r2.1 with
    | some e => (iodine.New (some e) [], r2.2)
    | none => (none, r2.2)

/-- Function `doListCmd` (cmd-ls.go, lines 155-171). -/
def doListCmd (env : Env) (methods : clientMethods) (targetURL : String)
    (targetConfig : hostConfig) (_debug : Bool) (w : World) : Option Error × World :=
  let w0 := (w.emit (Event.getNewClient targetURL targetConfig env.globalDebugFlag)).tick
  match methods.getNewClient targetURL targetConfig env.globalDebugFlag w.clock with
  | Except.error err => (iodine.New (some err) [("Target", targetURL)], w0)
  | Except.ok clnt =>
    let r := doList env clnt targetURL w0
    let r2 := retryLoop env (doList env clnt targetURL) env.globalMaxRetryFlag 0 r.1 r.2
    match r2.1 with
    | some e => (iodine.New (some e) [], r2.2)
    | none => (none, r2.2)

/-! ## runListCmd -/

/-- How a run of the command ends: `runListCmd` returns, or the process is ended by
`cli.ShowCommandHelpAndExit(ctx, command, code)` or by `console.Fatalf` with the
formatted message. -/
inductive Outcome where
  | returned
  | helpExit (command : String) (code : Nat)
  | fatal (msg : String)
deriving DecidableEq

/-- The store `m[k] = v` on a Go map, kept as the list of its entries (distinct
keys): the entry for `k` is replaced when there is one, added otherwise. -/
def mapStore (m : List (String × hostConfig)) (k : String) (v : hostConfig) :
    List (String × hostConfig) :=
  match m with
  | [] => [(k, v)]
  | (k0, v0) :: rest => if k0 = k then (k, v) :: rest else (k0, v0) :: mapStore rest k v

/-- The loop `for _, arg := range ctx.Args() { ... }` of `runListCmd` (lines 95-114):
resolves each argument and stores its host configuration under its target URL. An
error ends the process through `console.Fatalf`; its message is the `Except.error`. -/
def resolveArgs (env : Env) (config : mcConfig) :
    List String → List (String × hostConfig) → World →
      Except String (List (String × hostConfig)) × World
  | [], m, w => (Except.ok m, w)
  | arg :: rest, m, w =>
    match env.getURL arg config.Aliases with
    | Except.error err =>
      let w1 := log.Debug.Println (iodine.New (some err) []) w
      if (iodine.ToError err).dynType = "errUnsupportedScheme" then
        (Except.error ("Unknown type of URL [" ++ arg ++ "].\n"), w1)
      else
        (Except.error ("Unable to parse argument [" ++ arg ++ "]. Reason: [" ++
          (iodine.ToError err).msg ++ "].\n"), w1)
    | Except.ok targetURL =>
      match env.getHostConfig targetURL with
      | Except.error err =>
        let w1 := log.Debug.Println (iodine.New (some err) []) w
        (Except.error ("Unable to read host configuration for [" ++ targetURL ++
          "] from config file [" ++ env.mustGetMcConfigPath ++ "]. Reason: [" ++
          (iodine.ToError err).msg ++ "].\n"), w1)
      | Except.ok targetConfig =>
        resolveArgs env config rest (mapStore m targetURL targetConfig) w

/-- The loop `for targetURL, targetConfig := range targetURLConfigMap { ... }` of
`runListCmd` (lines 115-134), over the entries in the order the `range` visits them. -/
def listTargets (env : Env) : List (String × hostConfig) → World → Outcome × World
  | [], w => (Outcome.returned, w)
  | (targetURL, targetConfig) :: rest, w =>
    if env.isURLRecursive targetURL then
      let targetURL1 := strings.TrimSuffix targetURL env.recursiveSeparator
      let r := doListCmd env env.mcClientMethods targetURL1 targetConfig env.globalDebugFlag w
      match iodine.New r.1 [] with
      | some e =>
        (Outcome.fatal ("Failed to list [" ++ targetURL1 ++ "]. Reason: [" ++
          (iodine.ToError e).msg ++ "].\n"), log.Debug.Println (some e) r.2)
      | none => listTargets env rest r.2
    else
      let r := doListSingleCmd env env.mcClientMethods targetURL targetConfig env.globalDebugFlag w
      match r.1 with
      | some e =>
        (Outcome.fatal ("Failed to list [" ++ targetURL ++ "]. Reason: [" ++
          (iodine.ToError e).msg ++ "].\n"), log.Debug.Println (some e) r.2)
      | none => listTargets env rest r.2

/-- Function `runListCmd` (cmd-ls.go, lines 85-135) on the arguments `ctx.Args()`. -/
def runListCmd (env : Env) (args : List String) (w : World) : Outcome × World :=
  if args.length < 1 ∨ args.head? = some "help" then (Outcome.helpExit "ls" 1, w)
  else
    match env.getMcConfig with
    | Except.error err =>
      (Outcome.fatal ("Unable to read config file [" ++ env.mustGetMcConfigPath ++
        "]. Reason: [" ++ (iodine.ToError err).msg ++ "].\n"),
        log.Debug.Println (iodine.New (some err) []) w)
    | Except.ok config =>
      let r := resolveArgs env config args [] w
      match r.1 with
      | Except.error msg => (Outcome.fatal msg, r.2)
      | Except.ok m => listTargets env (env.rangeOrder m).1 r.2

/-! ## Reading a trace -/

/-- The driver for a target: `doList` when recursive, `doListSingle` otherwise. -/
def driver (env : Env) (recursive : Bool) (clnt : Client) (targetURL : String) (w : World) :
    Option Error × World :=
  if recursive then doList env clnt targetURL w else doListSingle env clnt targetURL w

/-- The command for a target: `doListCmd` when recursive, `doListSingleCmd` otherwise. -/
def listCmd (env : Env) (recursive : Bool) (methods : clientMethods) (targetURL : String)
    (targetConfig : hostConfig) (debug : Bool) (w : World) : Option Error × World :=
  if recursive then doListCmd env methods targetURL targetConfig debug w
  else doListSingleCmd env methods targetURL targetConfig debug w

/-- The channel a driver ranges over when started at clock `t`. -/
def channelOf (clnt : Client) (recursive : Bool) (t : Nat) : List ItemOnChannel :=
  if recursive then clnt.List t else clnt.ListSingle t

/-- The error a listing attempt returns when started at clock `t`. -/
def attempt (env : Env) (recursive : Bool) (clnt : Client) (targetURL : String) (t : Nat) :
    Option Error :=
  (driver env recursive clnt targetURL { clock := t, trace := [] }).1

/-- The items of the results that come before the first result carrying an error. -/
def entriesBeforeError (ch : List ItemOnChannel) : List Item :=
  (ch.takeWhile (fun x => x.Err.isNone)).map (fun x => x.Item)

/-- The error of the first result carrying one, `none` when no result does. -/
def firstError (ch : List ItemOnChannel) : Option Error :=
  (ch.find? (fun x => x.Err.isSome)).bind (fun x => x.Err)

/-- Everything written to standard output, in order: style, text, and whether the
write ended the line. -/
def stdoutOf : List Event → List (Style × String × Bool)
  | [] => []
  | Event.stdout s t n :: rest => (s, t, n) :: stdoutOf rest
  | _ :: rest => stdoutOf rest

/-- The texts of the retry notices printed, in order. -/
def noticesOf : List Event → List String
  | [] => []
  | Event.stdout Style.Retry t _ :: rest => t :: noticesOf rest
  | _ :: rest => noticesOf rest

/-- The names printed (the texts handed to `console.Dir` and `console.File`), in order. -/
def namesOf : List Event → List String
  | [] => []
  | Event.stdout Style.Dir t _ :: rest => t :: namesOf rest
  | Event.stdout Style.File t _ :: rest => t :: namesOf rest
  | _ :: rest => namesOf rest

/-- The number of finished output lines: writes that end with a newline. -/
def linesOf : List Event → Nat
  | [] => 0
  | Event.stdout _ _ true :: rest => linesOf rest + 1
  | _ :: rest => linesOf rest

/-- The arguments of the calls of `time.Sleep`, in order (nanoseconds). -/
def sleepsOf : List Event → List Int
  | [] => []
  | Event.sleep d :: rest => d :: sleepsOf rest
  | _ :: rest => sleepsOf rest

/-- The time slept in total, in nanoseconds: `time.Sleep(d)` pauses for `d` when
`d` is positive and returns at once otherwise. -/
def totalSlept (evs : List Event) : Int :=
  ((sleepsOf evs).map (fun d => max d 0)).sum

/-- The driver invocations, in order: kind, client and target URL. -/
def listingsOf : List Event → List (Bool × Client × String)
  | [] => []
  | Event.listing r c u :: rest => (r, c, u) :: listingsOf rest
  | _ :: rest => listingsOf rest

/-- The calls of the client factory, in order. -/
def newClientsOf : List Event → List (String × hostConfig × Bool)
  | [] => []
  | Event.getNewClient u c d :: rest => (u, c, d) :: newClientsOf rest
  | _ :: rest => newClientsOf rest

/-- The sum `1^2 + 2^2 + ... + n^2`. -/
def sumSquares : Nat → Nat
  | 0 => 0
  | n + 1 => sumSquares n + (n + 1) ^ 2

/-! ## Reading a run -/

/-- The events of one call of `printItem` on an item. -/
def printed (env : Env) (it : Item) : List Event :=
  (printItem env it.Time it.Size it.Name it.FileType { clock := 0, trace := [] }).trace

/-- The events of the loop over a channel: the items before the first error, printed. -/
def rangeEvents (env : Env) (ch : List ItemOnChannel) : List Event :=
  ((entriesBeforeError ch).map (printed env)).flatten

/-- The events of one driver invocation started at clock `t`. -/
def driveEvents (env : Env) (recursive : Bool) (clnt : Client) (targetURL : String) (t : Nat) :
    List Event :=
  Event.listing recursive clnt targetURL :: rangeEvents env (channelOf clnt recursive t)

/-- The events of `k` rounds of the retry loop, the counter starting at `i` and the
first of the driver calls made at clock `t`. -/
def retryEvents (env : Env) (recursive : Bool) (clnt : Client) (targetURL : String) :
    Nat → Nat → Nat → List Event
  | 0, _, _ => []
  | k + 1, i, t =>
    Event.stdout Style.Retry ("Retrying ... " ++ toString i) true ::
      Event.sleep (sleepDuration i) ::
      (driveEvents env recursive clnt targetURL t ++
        retryEvents env recursive clnt targetURL k (i + 1) (t + 1))

/-- Whether an argument passes both `getURL` and `getHostConfig`. -/
def resolves (env : Env) (config : mcConfig) (arg : String) : Bool :=
  match env.getURL arg config.Aliases with
  | Except.error _ => false
  | Except.ok targetURL =>
    match env.getHostConfig targetURL with
    | Except.error _ => false
    | Except.ok _ => true

/-- A transient network error. -/
def exReset : Error := Error.prim "net.OpError" "connection reset by peer"

/-- An error no retry can fix. -/
def exDenied : Error := Error.prim "client.AccessDenied" "access denied"

/-- The listing of the scenario of the spec: a file `a.txt` of 1024 bytes and a
directory `sub`. -/
def exItems : List ItemOnChannel :=
  [{ Item := { Name := "a.txt", Time := 0, Size := 1024, FileType := 0 }, Err := none },
   { Item := { Name := "sub", Time := 0, Size := 0, FileType := os.ModeDir }, Err := none }]

/-- A result carrying the error `e`. -/
def exFailure (e : Error) : ItemOnChannel :=
  { Item := { Name := "", Time := 0, Size := 0, FileType := 0 }, Err := some e }

/-- A client whose listings fail with `e` while the clock is below `healthyFrom` and
yield `exItems` from then on. -/
def exClient (e : Error) (healthyFrom : Nat) : Client where
  ListSingle := fun t => if t < healthyFrom then [exFailure e] else exItems
  List := fun t => if t < healthyFrom then [exFailure e] else exItems

/-- A client factory that hands out `clnt` for every target. -/
def exMethods (clnt : Client) : clientMethods where
  getNewClient := fun _ _ _ _ => Except.ok clnt

/-- A host configuration. -/
def exConfig : hostConfig :=
  { endpoint := "https://store", credentials := "key", aliasName := "store" }

/-- An environment: `maxRetry` is `globalMaxRetryFlag`, network errors are the
retryable ones, the argument `bad://x` does not resolve, targets under `nosuchhost`
have no host configuration, the recursion marker is `...`, and a map is ranged over
in the order of its entries. -/
def exEnv (maxRetry : Nat) (clnt : Client) : Env where
  globalMaxRetryFlag := maxRetry
  globalDebugFlag := false
  isValidRetry := fun e => decide ((iodine.ToError e).dynType = "net.OpError")
  formatLocal := fun _ => "2015-04-01 10:00:00 UTC"
  IBytes := fun n => if n = 1024 then "1.0 KiB" else toString n ++ " B"
  getMcConfig := Except.ok { Aliases := [] }
  mustGetMcConfigPath := "config.json"
  getURL := fun arg _ =>
    if arg = "bad://x" then Except.error (Error.prim "errUnsupportedScheme" "unsupported scheme")
    else Except.ok arg
  getHostConfig := fun url =>
    if strings.HasSuffix url "nosuchhost/bucket" then
      Except.error (Error.prim "errors.errorString" "no such host")
    else Except.ok exConfig
  isURLRecursive := fun url => strings.HasSuffix url "..."
  recursiveSeparator := "..."
  mcClientMethods := exMethods clnt
  rangeOrder := fun m => ⟨m, List.Perm.refl m⟩

/-- The world before anything has happened. -/
def exWorld : World := { clock := 0, trace := [] }

/-- A client whose listings yield a symbolic link `link` and then the file `a.txt`. -/
def exLinkClient : Client where
  ListSingle := fun _ =>
    [{ Item := { Name := "link", Time := 0, Size := 0, FileType := os.ModeSymlink },
       Err := none },
     { Item := { Name := "a.txt", Time := 0, Size := 1024, FileType := 0 }, Err := none }]
  List := fun _ =>
    [{ Item := { Name := "link", Time := 0, Size := 0, FileType := os.ModeSymlink },
       Err := none },
     { Item := { Name := "a.txt", Time := 0, Size := 1024, FileType := 0 }, Err := none }]

/-! # Theorems -/

/-! ## Basic facts about worlds and traces -/

theorem since_append (w : World) (c : Nat) (evs : List Event) :
    World.since { clock := c, trace := w.trace ++ evs } w = evs := by
  simp [World.since]

theorem stdoutOf_append (a b : List Event) : stdoutOf (a ++ b) = stdoutOf a ++ stdoutOf b := by
  induction a with
  | nil => rfl
  | cons e rest ih => cases e <;> simp [stdoutOf, ih]

theorem noticesOf_append (a b : List Event) :
    noticesOf (a ++ b) = noticesOf a ++ noticesOf b := by
  induction a with
  | nil => rfl
  | cons e rest ih =>
    cases e with
    | stdout s t n => cases s <;> simp [noticesOf, ih]
    | _ => simp [noticesOf, ih]

theorem namesOf_append (a b : List Event) : namesOf (a ++ b) = namesOf a ++ namesOf b := by
  induction a with
  | nil => rfl
  | cons e rest ih =>
    cases e with
    | stdout s t n => cases s <;> simp [namesOf, ih]
    | _ => simp [namesOf, ih]

theorem linesOf_append (a b : List Event) : linesOf (a ++ b) = linesOf a + linesOf b := by
  induction a with
  | nil => simp [linesOf]
  | cons e rest ih =>
    cases e with
    | stdout s t n =>
      cases n
      · simp [linesOf, ih]
      · simp [linesOf, ih]
        omega
    | _ => simp [linesOf, ih]

theorem sleepsOf_append (a b : List Event) : sleepsOf (a ++ b) = sleepsOf a ++ sleepsOf b := by
  induction a with
  | nil => rfl
  | cons e rest ih => cases e <;> simp [sleepsOf, ih]

theorem listingsOf_append (a b : List Event) :
    listingsOf (a ++ b) = listingsOf a ++ listingsOf b := by
  induction a with
  | nil => rfl
  | cons e rest ih => cases e <;> simp [listingsOf, ih]

theorem newClientsOf_append (a b : List Event) :
    newClientsOf (a ++ b) = newClientsOf a ++ newClientsOf b := by
  induction a with
  | nil => rfl
  | cons e rest ih => cases e <;> simp [newClientsOf, ih]

/-! ## The formatter and the drivers -/

theorem printItem_eq (env : Env) (it : Item) (w : World) :
    printItem env it.Time it.Size it.Name it.FileType w =
      { clock := w.clock, trace := w.trace ++ printed env it } := by
  unfold printed printItem
  by_cases hd : FileMode.IsDir it.FileType = true <;>
    by_cases hr : FileMode.IsRegular it.FileType = true <;>
    by_cases hs : strings.HasSuffix it.Name "/" = true <;>
    simp [hd, hr, hs, fmt.Printf, fmt.Println, World.emit]

theorem rangeItems_eq (env : Env) (ch : List ItemOnChannel) (w : World) :
    rangeItems env ch w =
      (firstError ch, { clock := w.clock, trace := w.trace ++ rangeEvents env ch }) := by
  induction ch generalizing w with
  | nil => simp [rangeItems, firstError, rangeEvents, entriesBeforeError]
  | cons x rest ih =>
    cases hx : x.Err with
    | some e =>
      simp [rangeItems, hx, firstError, rangeEvents, entriesBeforeError]
    | none =>
      simp only [rangeItems, hx]
      rw [printItem_eq, ih]
      simp [firstError, rangeEvents, entriesBeforeError, hx]

theorem driver_eq (env : Env) (recursive : Bool) (clnt : Client) (targetURL : String)
    (w : World) :
    driver env recursive clnt targetURL w =
      (iodine.New (firstError (channelOf clnt recursive w.clock)) [("Target", targetURL)],
        { clock := w.clock + 1,
          trace := w.trace ++ driveEvents env recursive clnt targetURL w.clock }) := by
  cases recursive
  · simp only [driver, doListSingle, rangeItems_eq, channelOf, driveEvents,
      World.emit, World.tick]
    cases h : firstError (clnt.ListSingle w.clock) <;> simp [iodine.New, h]
  · simp only [driver, doList, rangeItems_eq, channelOf, driveEvents,
      World.emit, World.tick]
    cases h : firstError (clnt.List w.clock) <;> simp [iodine.New, h]

theorem attempt_eq (env : Env) (recursive : Bool) (clnt : Client) (targetURL : String)
    (t : Nat) :
    attempt env recursive clnt targetURL t =
      iodine.New (firstError (channelOf clnt recursive t)) [("Target", targetURL)] := by
  simp [attempt, driver_eq]

theorem foldl_printItem (env : Env) (items : List Item) (w : World) :
    items.foldl (fun w0 it => printItem env it.Time it.Size it.Name it.FileType w0) w =
      { clock := w.clock, trace := w.trace ++ (items.map (printed env)).flatten } := by
  induction items generalizing w with
  | nil => simp
  | cons it rest ih =>
    simp only [List.foldl]
    rw [printItem_eq, ih]
    simp

/-- C1. Whatever finite sequence of results the client produces, `doListSingle`
(and `doList`) ends in the world reached by calling `printItem` on the entries
before the first error, once each and in production order, and on nothing else;
it returns nil when no result carries an error, and otherwise the first error
wrapped with `Target = targetURL`. -/
theorem C1_driver_prints_entries_before_first_error (env : Env) (recursive : Bool)
    (clnt : Client) (targetURL : String) (w : World) :
    (driver env recursive clnt targetURL w).2 =
        (entriesBeforeError (channelOf clnt recursive w.clock)).foldl
          (fun w0 it => printItem env it.Time it.Size it.Name it.FileType w0)
          ((w.emit (Event.listing recursive clnt targetURL)).tick) ∧
      ((∀ x ∈ channelOf clnt recursive w.clock, x.Err = none) →
        (driver env recursive clnt targetURL w).1 = none) ∧
      (∀ e, firstError (channelOf clnt recursive w.clock) = some e →
        (driver env recursive clnt targetURL w).1 =
          some (Error.iodine e [("Target", targetURL)])) := by
  refine ⟨?_, ?_, ?_⟩
  · rw [driver_eq, foldl_printItem]
    simp [World.emit, World.tick, driveEvents, rangeEvents]
  · intro h
    rw [driver_eq]
    have : firstError (channelOf clnt recursive w.clock) = none := by
      unfold firstError
      rw [List.find?_eq_none.2]
      · rfl
      · intro x hx
        simp [h x hx]
    simp [this, iodine.New]
  · intro e he
    rw [driver_eq, he]
    rfl

/-! ## The retry loop -/

theorem noticesOf_printed (env : Env) (it : Item) : noticesOf (printed env it) = [] := by
  unfold printed printItem
  by_cases hd : FileMode.IsDir it.FileType = true <;>
    by_cases hr : FileMode.IsRegular it.FileType = true <;>
    by_cases hs : strings.HasSuffix it.Name "/" = true <;>
    simp [hd, hr, hs, fmt.Printf, fmt.Println, World.emit, noticesOf]

theorem sleepsOf_printed (env : Env) (it : Item) : sleepsOf (printed env it) = [] := by
  unfold printed printItem
  by_cases hd : FileMode.IsDir it.FileType = true <;>
    by_cases hr : FileMode.IsRegular it.FileType = true <;>
    by_cases hs : strings.HasSuffix it.Name "/" = true <;>
    simp [hd, hr, hs, fmt.Printf, fmt.Println, World.emit, sleepsOf]

theorem listingsOf_printed (env : Env) (it : Item) : listingsOf (printed env it) = [] := by
  unfold printed printItem
  by_cases hd : FileMode.IsDir it.FileType = true <;>
    by_cases hr : FileMode.IsRegular it.FileType = true <;>
    by_cases hs : strings.HasSuffix it.Name "/" = true <;>
    simp [hd, hr, hs, fmt.Printf, fmt.Println, World.emit, listingsOf]

theorem newClientsOf_printed (env : Env) (it : Item) : newClientsOf (printed env it) = [] := by
  unfold printed printItem
  by_cases hd : FileMode.IsDir it.FileType = true <;>
    by_cases hr : FileMode.IsRegular it.FileType = true <;>
    by_cases hs : strings.HasSuffix it.Name "/" = true <;>
    simp [hd, hr, hs, fmt.Printf, fmt.Println, World.emit, newClientsOf]

theorem noticesOf_rangeEvents (env : Env) (ch : List ItemOnChannel) :
    noticesOf (rangeEvents env ch) = [] := by
  unfold rangeEvents
  induction entriesBeforeError ch with
  | nil => rfl
  | cons it rest ih => simp [noticesOf_append, noticesOf_printed, ih]

theorem sleepsOf_rangeEvents (env : Env) (ch : List ItemOnChannel) :
    sleepsOf (rangeEvents env ch) = [] := by
  unfold rangeEvents
  induction entriesBeforeError ch with
  | nil => rfl
  | cons it rest ih => simp [sleepsOf_append, sleepsOf_printed, ih]

theorem listingsOf_rangeEvents (env : Env) (ch : List ItemOnChannel) :
    listingsOf (rangeEvents env ch) = [] := by
  unfold rangeEvents
  induction entriesBeforeError ch with
  | nil => rfl
  | cons it rest ih => simp [listingsOf_append, listingsOf_printed, ih]

theorem newClientsOf_rangeEvents (env : Env) (ch : List ItemOnChannel) :
    newClientsOf (rangeEvents env ch) = [] := by
  unfold rangeEvents
  induction entriesBeforeError ch with
  | nil => rfl
  | cons it rest ih => simp [newClientsOf_append, newClientsOf_printed, ih]

theorem noticesOf_retryEvents (env : Env) (recursive : Bool) (clnt : Client)
    (targetURL : String) (k i t : Nat) :
    noticesOf (retryEvents env recursive clnt targetURL k i t) =
      (List.range' i k).map (fun j => "Retrying ... " ++ toString j) := by
  induction k generalizing i t with
  | zero => rfl
  | succ k ih =>
    simp [retryEvents, noticesOf, noticesOf_append, driveEvents, noticesOf_rangeEvents, ih,
      List.range'_succ]

theorem sleepsOf_retryEvents (env : Env) (recursive : Bool) (clnt : Client)
    (targetURL : String) (k i t : Nat) :
    sleepsOf (retryEvents env recursive clnt targetURL k i t) =
      (List.range' i k).map sleepDuration := by
  induction k generalizing i t with
  | zero => rfl
  | succ k ih =>
    simp [retryEvents, sleepsOf, sleepsOf_append, driveEvents, sleepsOf_rangeEvents, ih,
      List.range'_succ]

theorem listingsOf_retryEvents (env : Env) (recursive : Bool) (clnt : Client)
    (targetURL : String) (k i t : Nat) :
    listingsOf (retryEvents env recursive clnt targetURL k i t) =
      List.replicate k (recursive, clnt, targetURL) := by
  induction k generalizing i t with
  | zero => rfl
  | succ k ih =>
    simp [retryEvents, listingsOf, listingsOf_append, driveEvents, listingsOf_rangeEvents, ih,
      List.replicate_succ]

theorem newClientsOf_retryEvents (env : Env) (recursive : Bool) (clnt : Client)
    (targetURL : String) (k i t : Nat) :
    newClientsOf (retryEvents env recursive clnt targetURL k i t) = [] := by
  induction k generalizing i t with
  | zero => rfl
  | succ k ih =>
    simp [retryEvents, newClientsOf, newClientsOf_append, driveEvents,
      newClientsOf_rangeEvents, ih]

theorem retryLoop_nil (env : Env) (drive : World → Option Error × World) (n i : Nat)
    (w : World) : retryLoop env drive n i none w = (none, w) := by
  cases n <;> rfl

theorem retryLoop_terminal (env : Env) (drive : World → Option Error × World) (n i : Nat)
    (e : Error) (w : World) (h : env.isValidRetry e = false) :
    retryLoop env drive n i (some e) w = (some e, w) := by
  cases n
  · rfl
  · simp [retryLoop, h]

theorem retryLoop_round (env : Env) (recursive : Bool) (clnt : Client) (targetURL : String)
    (n i : Nat) (e : Error) (w : World) (h : env.isValidRetry e = true) :
    retryLoop env (driver env recursive clnt targetURL) (n + 1) i (some e) w =
      retryLoop env (driver env recursive clnt targetURL) n (i + 1)
        (attempt env recursive clnt targetURL w.clock)
        { clock := w.clock + 1,
          trace := w.trace ++ retryEvents env recursive clnt targetURL 1 i w.clock } := by
  simp [retryLoop, h, driver_eq, attempt_eq, fmt.Println, time.Sleep, World.emit, retryEvents]

theorem retryEvents_succ (env : Env) (recursive : Bool) (clnt : Client) (targetURL : String)
    (k i t : Nat) :
    retryEvents env recursive clnt targetURL (k + 1) i t =
      retryEvents env recursive clnt targetURL 1 i t ++
        retryEvents env recursive clnt targetURL k (i + 1) (t + 1) := by
  simp [retryEvents]

/-- While the errors stay retryable the loop goes round: after `k + 1` rounds it is
where `k + 1` driver calls have left it. -/
theorem retryLoop_rounds (env : Env) (recursive : Bool) (clnt : Client) (targetURL : String)
    (k n i : Nat) (e : Error) (w : World) (h : env.isValidRetry e = true)
    (hfail : ∀ j, j < k → ∃ e1, attempt env recursive clnt targetURL (w.clock + j) = some e1 ∧
      env.isValidRetry e1 = true) :
    retryLoop env (driver env recursive clnt targetURL) (n + k + 1) i (some e) w =
      retryLoop env (driver env recursive clnt targetURL) n (i + k + 1)
        (attempt env recursive clnt targetURL (w.clock + k))
        { clock := w.clock + k + 1,
          trace := w.trace ++ retryEvents env recursive clnt targetURL (k + 1) i w.clock } := by
  induction k generalizing i e w with
  | zero => simpa using retryLoop_round env recursive clnt targetURL n i e w h
  | succ k ih =>
    obtain ⟨e1, he1, hv1⟩ := hfail 0 (Nat.succ_pos k)
    have hstep := retryLoop_round env recursive clnt targetURL (n + k + 1) i e w h
    rw [show n + (k + 1) + 1 = n + k + 1 + 1 by omega, hstep]
    simp only [Nat.add_zero] at he1
    rw [he1]
    have hrest := ih (i + 1) e1
      { clock := w.clock + 1,
        trace := w.trace ++ retryEvents env recursive clnt targetURL 1 i w.clock } hv1
      (by
        intro j hj
        obtain ⟨e2, he2, hv2⟩ := hfail (j + 1) (by omega)
        refine ⟨e2, ?_, hv2⟩
        show attempt env recursive clnt targetURL (w.clock + 1 + j) = some e2
        rw [show w.clock + 1 + j = w.clock + (j + 1) by omega]
        exact he2)
    rw [hrest, retryEvents_succ env recursive clnt targetURL (k + 1) i w.clock]
    simp only [List.append_assoc]
    rw [show i + 1 + k + 1 = i + (k + 1) + 1 by omega,
      show w.clock + 1 + k = w.clock + (k + 1) by omega]

/-- Whatever the attempts return, the loop goes round some `m` times, `m` at most
the number of values left to the counter. -/
theorem retryLoop_shape (env : Env) (recursive : Bool) (clnt : Client) (targetURL : String)
    (n i : Nat) (err : Option Error) (w : World) :
    ∃ m, m ≤ n ∧
      (retryLoop env (driver env recursive clnt targetURL) n i err w).2 =
        { clock := w.clock + m,
          trace := w.trace ++ retryEvents env recursive clnt targetURL m i w.clock } := by
  induction n generalizing i err w with
  | zero => exact ⟨0, le_refl 0, by simp [retryLoop, retryEvents]⟩
  | succ n ih =>
    cases err with
    | none => exact ⟨0, Nat.zero_le _, by simp [retryLoop_nil, retryEvents]⟩
    | some e =>
      by_cases h : env.isValidRetry e = true
      · rw [retryLoop_round env recursive clnt targetURL n i e w h]
        obtain ⟨m, hm, heq⟩ := ih (i + 1) (attempt env recursive clnt targetURL w.clock)
          { clock := w.clock + 1,
            trace := w.trace ++ retryEvents env recursive clnt targetURL 1 i w.clock }
        refine ⟨m + 1, by omega, ?_⟩
        rw [heq, retryEvents_succ env recursive clnt targetURL m i w.clock]
        simp only [List.append_assoc]
        rw [show w.clock + 1 + m = w.clock + (m + 1) by omega]
      · have h0 : env.isValidRetry e = false := by simpa using h
        exact ⟨0, Nat.zero_le _, by simp [retryLoop_terminal _ _ _ _ _ _ h0, retryEvents]⟩

theorem driver_false (env : Env) (clnt : Client) (targetURL : String) :
    doListSingle env clnt targetURL = driver env false clnt targetURL := by
  funext w
  simp [driver]

theorem driver_true (env : Env) (clnt : Client) (targetURL : String) :
    doList env clnt targetURL = driver env true clnt targetURL := by
  funext w
  simp [driver]

/-- The two commands, written once: the client is built at clock `w.clock`, the first
attempt runs at the next clock value, and the loop takes over from there. -/
theorem listCmd_eq (env : Env) (recursive : Bool) (methods : clientMethods)
    (targetURL : String) (cfg : hostConfig) (debug : Bool) (w : World) :
    listCmd env recursive methods targetURL cfg debug w =
      match methods.getNewClient targetURL cfg env.globalDebugFlag w.clock with
      | Except.error err =>
        (some (Error.iodine err [("Target", targetURL)]),
          { clock := w.clock + 1,
            trace := w.trace ++ [Event.getNewClient targetURL cfg env.globalDebugFlag] })
      | Except.ok clnt =>
        (iodine.New (retryLoop env (driver env recursive clnt targetURL)
            env.globalMaxRetryFlag 0 (attempt env recursive clnt targetURL (w.clock + 1))
            { clock := w.clock + 2,
              trace := w.trace ++ (Event.getNewClient targetURL cfg env.globalDebugFlag ::
                driveEvents env recursive clnt targetURL (w.clock + 1)) }).1 [],
          (retryLoop env (driver env recursive clnt targetURL)
            env.globalMaxRetryFlag 0 (attempt env recursive clnt targetURL (w.clock + 1))
            { clock := w.clock + 2,
              trace := w.trace ++ (Event.getNewClient targetURL cfg env.globalDebugFlag ::
                driveEvents env recursive clnt targetURL (w.clock + 1)) }).2) := by
  cases recursive
  · simp only [listCmd, doListSingleCmd, driver_false, driver_eq, attempt_eq, World.emit,
      World.tick]
    cases methods.getNewClient targetURL cfg env.globalDebugFlag w.clock with
    | error err => simp [iodine.New]
    | ok clnt =>
      simp only [List.append_assoc, List.singleton_append, Bool.false_eq_true, if_false]
      split <;> simp_all [iodine.New]
  · simp only [listCmd, doListCmd, driver_true, driver_eq, attempt_eq, World.emit,
      World.tick]
    cases methods.getNewClient targetURL cfg env.globalDebugFlag w.clock with
    | error err => simp [iodine.New]
    | ok clnt =>
      simp only [List.append_assoc, List.singleton_append, if_true]
      split <;> simp_all [iodine.New]

/-! ## The two commands -/

/-- A command whose client construction fails does nothing but that call. -/
theorem listCmd_of_error (env : Env) (recursive : Bool) (methods : clientMethods)
    (targetURL : String) (cfg : hostConfig) (debug : Bool) (w : World) (err : Error)
    (hnew : methods.getNewClient targetURL cfg env.globalDebugFlag w.clock = Except.error err) :
    (listCmd env recursive methods targetURL cfg debug w).1 =
        some (Error.iodine err [("Target", targetURL)]) ∧
      (listCmd env recursive methods targetURL cfg debug w).2.since w =
        [Event.getNewClient targetURL cfg env.globalDebugFlag] := by
  rw [listCmd_eq, hnew]
  exact ⟨rfl, since_append w _ _⟩

/-- A command whose client construction succeeds makes the first attempt and then
goes round the retry loop some `m` times, `m` at most `globalMaxRetryFlag`. -/
theorem listCmd_of_ok (env : Env) (recursive : Bool) (methods : clientMethods)
    (targetURL : String) (cfg : hostConfig) (debug : Bool) (w : World) (clnt : Client)
    (hnew : methods.getNewClient targetURL cfg env.globalDebugFlag w.clock = Except.ok clnt) :
    ∃ m, m ≤ env.globalMaxRetryFlag ∧
      (listCmd env recursive methods targetURL cfg debug w).2.since w =
        Event.getNewClient targetURL cfg env.globalDebugFlag ::
          (driveEvents env recursive clnt targetURL (w.clock + 1) ++
            retryEvents env recursive clnt targetURL m 0 (w.clock + 2)) := by
  rw [listCmd_eq, hnew]
  obtain ⟨m, hm, heq⟩ := retryLoop_shape env recursive clnt targetURL env.globalMaxRetryFlag 0
    (attempt env recursive clnt targetURL (w.clock + 1))
    { clock := w.clock + 2,
      trace := w.trace ++ (Event.getNewClient targetURL cfg env.globalDebugFlag ::
        driveEvents env recursive clnt targetURL (w.clock + 1)) }
  refine ⟨m, hm, ?_⟩
  simp only [heq, List.append_assoc, List.cons_append]
  exact since_append w _ _

/-- A command whose first `k + 1` attempts fail with retryable errors, `k` at most
`globalMaxRetryFlag - 1`, goes round the loop `k + 1` times at least and reaches the
loop head with the result of attempt number `k + 2`. -/
theorem listCmd_of_failures (env : Env) (recursive : Bool) (methods : clientMethods)
    (targetURL : String) (cfg : hostConfig) (debug : Bool) (w : World) (clnt : Client)
    (k n : Nat)
    (hnew : methods.getNewClient targetURL cfg env.globalDebugFlag w.clock = Except.ok clnt)
    (hmax : env.globalMaxRetryFlag = n + k + 1)
    (hfail : ∀ j, j < k + 1 → ∃ e,
      attempt env recursive clnt targetURL (w.clock + 1 + j) = some e ∧
        env.isValidRetry e = true) :
    listCmd env recursive methods targetURL cfg debug w =
      (iodine.New (retryLoop env (driver env recursive clnt targetURL) n (k + 1)
          (attempt env recursive clnt targetURL (w.clock + 1 + (k + 1)))
          { clock := w.clock + k + 3,
            trace := w.trace ++ (Event.getNewClient targetURL cfg env.globalDebugFlag ::
              (driveEvents env recursive clnt targetURL (w.clock + 1) ++
                retryEvents env recursive clnt targetURL (k + 1) 0 (w.clock + 2))) }).1 [],
        (retryLoop env (driver env recursive clnt targetURL) n (k + 1)
          (attempt env recursive clnt targetURL (w.clock + 1 + (k + 1)))
          { clock := w.clock + k + 3,
            trace := w.trace ++ (Event.getNewClient targetURL cfg env.globalDebugFlag ::
              (driveEvents env recursive clnt targetURL (w.clock + 1) ++
                retryEvents env recursive clnt targetURL (k + 1) 0 (w.clock + 2))) }).2) := by
  rw [listCmd_eq, hnew]
  obtain ⟨e0, he0, hv0⟩ := hfail 0 (Nat.succ_pos k)
  simp only [Nat.add_zero] at he0
  have hr := retryLoop_rounds env recursive clnt targetURL k n 0 e0
    { clock := w.clock + 2,
      trace := w.trace ++ (Event.getNewClient targetURL cfg env.globalDebugFlag ::
        driveEvents env recursive clnt targetURL (w.clock + 1)) } hv0
    (by
      intro j hj
      obtain ⟨e, he, hv⟩ := hfail (j + 1) (by omega)
      refine ⟨e, ?_, hv⟩
      show attempt env recursive clnt targetURL (w.clock + 2 + j) = some e
      rw [show w.clock + 2 + j = w.clock + 1 + (j + 1) by omega]
      exact he)
  simp only [he0, hmax, hr, Nat.zero_add, List.append_assoc, List.cons_append]
  rw [show w.clock + 2 + k = w.clock + 1 + (k + 1) by omega,
    show w.clock + 1 + (k + 1) + 1 = w.clock + k + 3 by omega]

theorem wrapInt64_of_range (z : Int) (h0 : -9223372036854775808 ≤ z)
    (h1 : z < 9223372036854775808) :
    wrapInt64 z = z := by
  unfold wrapInt64
  norm_num
  omega

theorem wrapInt64_lt (z : Int) : wrapInt64 z < 9223372036854775808 := by
  unfold wrapInt64
  norm_num
  omega

theorem sleepDuration_exact (j : Nat) (hj : j ≤ 96038) :
    sleepDuration j = (j : Int) ^ 2 * time.Second := by
  have h1 : j * j ≤ 96038 * 96038 := Nat.mul_le_mul hj hj
  have h2 : (j : Int) * (j : Int) ≤ 9223297444 := by exact_mod_cast h1
  have h3 : (0 : Int) ≤ (j : Int) * (j : Int) := mul_self_nonneg _
  have hin : wrapInt64 ((j : Int) * (j : Int)) = (j : Int) * (j : Int) :=
    wrapInt64_of_range _ (by omega) (by omega)
  unfold sleepDuration
  rw [hin, wrapInt64_of_range _ (by unfold time.Second; omega) (by unfold time.Second; omega),
    pow_two]

theorem sleepDuration_le (j : Nat) : max (sleepDuration j) 0 ≤ (j : Int) ^ 2 * time.Second := by
  have h3 : (0 : Int) ≤ (j : Int) * (j : Int) := mul_self_nonneg _
  rw [pow_two]
  apply max_le
  · by_cases hj : j ≤ 96038
    · rw [sleepDuration_exact j hj, pow_two]
    · have h1 : 96039 * 96039 ≤ j * j := Nat.mul_le_mul (by omega) (by omega)
      have h2 : (9223489521 : Int) ≤ (j : Int) * (j : Int) := by exact_mod_cast h1
      have h4 := wrapInt64_lt (wrapInt64 ((j : Int) * (j : Int)) * time.Second)
      unfold sleepDuration
      unfold time.Second at *
      omega
  · unfold time.Second; omega

theorem totalSlept_append (a b : List Event) :
    totalSlept (a ++ b) = totalSlept a + totalSlept b := by
  unfold totalSlept
  rw [sleepsOf_append, List.map_append, List.sum_append]

theorem sumSquares_mono {m n : Nat} (h : m ≤ n) : sumSquares m ≤ sumSquares n := by
  induction h with
  | refl => exact le_refl _
  | step _ ih => exact le_trans ih (Nat.le_add_right _ _)

theorem second_nonneg : (0 : Int) ≤ time.Second := by decide

theorem sum_le_sumSquares (f : Nat → Int) (hf : ∀ j, f j ≤ (j : Int) ^ 2 * time.Second)
    (m : Nat) : ((List.range m).map f).sum ≤ (sumSquares m : Int) * time.Second := by
  induction m with
  | zero => simp [sumSquares]
  | succ m ih =>
    rw [List.range_succ, List.map_append, List.sum_append]
    have h1 := hf m
    have h2 := second_nonneg
    have h3 : ((sumSquares (m + 1) : Nat) : Int) * time.Second =
        (sumSquares m : Int) * time.Second + ((m : Int) + 1) ^ 2 * time.Second := by
      rw [sumSquares]
      push_cast
      ring
    have h4 : (m : Int) ^ 2 * time.Second ≤ ((m : Int) + 1) ^ 2 * time.Second := by
      apply mul_le_mul_of_nonneg_right _ h2
      have : (0 : Int) ≤ (m : Int) := Int.ofNat_nonneg m
      nlinarith
    rw [h3]
    simp only [List.map_cons, List.map_nil, List.sum_cons, List.sum_nil, add_zero]
    linarith

theorem totalSlept_retryEvents (env : Env) (recursive : Bool) (clnt : Client)
    (targetURL : String) (m t : Nat) :
    totalSlept (retryEvents env recursive clnt targetURL m 0 t) ≤
      (sumSquares m : Int) * time.Second := by
  unfold totalSlept
  rw [sleepsOf_retryEvents, ← List.range_eq_range', List.map_map]
  exact sum_le_sumSquares (fun j => max (sleepDuration j) 0) sleepDuration_le m

/-! ## Claims about the retry loop

In the statements below the command starts in the world `w`: the client is built at
clock `w.clock`, the first listing attempt runs at clock `w.clock + 1`, and attempt
number `j + 1` at clock `w.clock + 1 + j`. -/

/-- C2 (amended). For every k with 1 <= k < globalMaxRetryFlag: when the first k
listing attempts fail with retryable errors and the next one succeeds,
`doListSingleCmd` / `doListCmd` returns nil, prints exactly the k retry notices
"Retrying ... 0" to "Retrying ... k-1", and sleeps exactly k times, the j-th retry
(j = 1..k) for `time.Duration((j-1)*(j-1)) * time.Second`; that is (j-1)^2 seconds,
so 0s, 1s, 4s, ..., as long as that many nanoseconds fit an int64 (j-1 <= 96038). -/
theorem C2_retries_then_success (env : Env) (recursive : Bool) (methods : clientMethods)
    (targetURL : String) (cfg : hostConfig) (debug : Bool) (w : World) (clnt : Client)
    (k : Nat)
    (hnew : methods.getNewClient targetURL cfg env.globalDebugFlag w.clock = Except.ok clnt)
    (hk1 : 1 ≤ k) (hk : k < env.globalMaxRetryFlag)
    (hfail : ∀ j, j < k → ∃ e,
      attempt env recursive clnt targetURL (w.clock + 1 + j) = some e ∧
        env.isValidRetry e = true)
    (hsucc : attempt env recursive clnt targetURL (w.clock + 1 + k) = none) :
    (listCmd env recursive methods targetURL cfg debug w).1 = none ∧
      noticesOf ((listCmd env recursive methods targetURL cfg debug w).2.since w) =
        (List.range k).map (fun j => "Retrying ... " ++ toString j) ∧
      sleepsOf ((listCmd env recursive methods targetURL cfg debug w).2.since w) =
        (List.range k).map sleepDuration ∧
      (∀ j, j < k → j ≤ 96038 → sleepDuration j = (j : Int) ^ 2 * time.Second) := by
  obtain ⟨k0, rfl⟩ : ∃ k0, k = k0 + 1 := ⟨k - 1, by omega⟩
  obtain ⟨n, hn⟩ : ∃ n, env.globalMaxRetryFlag = n + k0 + 1 :=
    ⟨env.globalMaxRetryFlag - (k0 + 1), by omega⟩
  rw [listCmd_of_failures env recursive methods targetURL cfg debug w clnt k0 n hnew hn hfail,
    hsucc, retryLoop_nil]
  simp only [since_append]
  refine ⟨rfl, ?_, ?_, fun j _ hj => sleepDuration_exact j hj⟩
  · simp [noticesOf, noticesOf_append, driveEvents, noticesOf_rangeEvents, noticesOf_retryEvents,
      List.range_eq_range', List.range'_succ]
  · simp [sleepsOf, sleepsOf_append, driveEvents, sleepsOf_rangeEvents, sleepsOf_retryEvents,
      List.range_eq_range', List.range'_succ]

/-- C2, at a concrete input: a retry budget of five, two connection resets, then a
healthy listing. -/
theorem C2_retries_then_success_witness :
    (listCmd (exEnv 5 (exClient exReset 3)) false (exMethods (exClient exReset 3))
        "store/bucket" exConfig false exWorld).1 = none ∧
      sleepsOf ((listCmd (exEnv 5 (exClient exReset 3)) false
        (exMethods (exClient exReset 3)) "store/bucket" exConfig false exWorld).2.since
          exWorld) = [sleepDuration 0, sleepDuration 1] :=
  have h := C2_retries_then_success (exEnv 5 (exClient exReset 3)) false
    (exMethods (exClient exReset 3)) "store/bucket" exConfig false exWorld
    (exClient exReset 3) 2 rfl (by decide) (by decide)
    (fun j hj => ⟨Error.iodine exReset [("Target", "store/bucket")], by
      have hj2 : j = 0 ∨ j = 1 := by omega
      rcases hj2 with rfl | rfl <;> decide, by decide⟩)
    (by decide)
  ⟨h.1, h.2.2.1⟩

/-- C2 as stated fails: with a retry budget of two, one connection reset and then a
healthy listing (k = 1), the one retry sleeps for 0 seconds, not for 1 second. -/
theorem C2_first_retry_sleeps_zero_seconds :
    attempt (exEnv 2 (exClient exReset 2)) false (exClient exReset 2) "store/bucket" 1 =
        some (Error.iodine exReset [("Target", "store/bucket")]) ∧
      (exEnv 2 (exClient exReset 2)).isValidRetry
        (Error.iodine exReset [("Target", "store/bucket")]) = true ∧
      attempt (exEnv 2 (exClient exReset 2)) false (exClient exReset 2) "store/bucket" 2 =
        none ∧
      (doListSingleCmd (exEnv 2 (exClient exReset 2)) (exMethods (exClient exReset 2))
        "store/bucket" exConfig false exWorld).1 = none ∧
      sleepsOf ((doListSingleCmd (exEnv 2 (exClient exReset 2))
        (exMethods (exClient exReset 2)) "store/bucket" exConfig false exWorld).2.since
          exWorld) = [0] ∧
      sleepsOf ((doListSingleCmd (exEnv 2 (exClient exReset 2))
        (exMethods (exClient exReset 2)) "store/bucket" exConfig false exWorld).2.since
          exWorld) ≠ [1 * time.Second] := by
  decide

/-- C3 (amended). When every listing attempt fails with a retryable error,
`doListSingleCmd` / `doListCmd` invokes the driver exactly globalMaxRetryFlag + 1
times (the first attempt and globalMaxRetryFlag retries), never more, each time on
the same client and target, and returns the error of the last attempt, wrapped. -/
theorem C3_all_transient_first_attempt_plus_max_retries (env : Env) (recursive : Bool)
    (methods : clientMethods) (targetURL : String) (cfg : hostConfig) (debug : Bool)
    (w : World) (clnt : Client)
    (hnew : methods.getNewClient targetURL cfg env.globalDebugFlag w.clock = Except.ok clnt)
    (hall : ∀ j, j ≤ env.globalMaxRetryFlag → ∃ e,
      attempt env recursive clnt targetURL (w.clock + 1 + j) = some e ∧
        env.isValidRetry e = true) :
    listingsOf ((listCmd env recursive methods targetURL cfg debug w).2.since w) =
        List.replicate (env.globalMaxRetryFlag + 1) (recursive, clnt, targetURL) ∧
      (listCmd env recursive methods targetURL cfg debug w).1 =
        iodine.New (attempt env recursive clnt targetURL
          (w.clock + 1 + env.globalMaxRetryFlag)) [] ∧
      (listCmd env recursive methods targetURL cfg debug w).1 ≠ none := by
  obtain ⟨elast, hlast, _⟩ := hall env.globalMaxRetryFlag (le_refl _)
  cases hmax : env.globalMaxRetryFlag with
  | zero =>
    rw [hmax] at hlast
    rw [listCmd_eq, hnew]
    simp only [hmax, retryLoop, since_append]
    simp only [Nat.add_zero] at hlast
    refine ⟨?_, by simp, ?_⟩
    · simp [listingsOf, driveEvents, listingsOf_rangeEvents]
    · simp [hlast, iodine.New]
  | succ m =>
    rw [hmax] at hlast
    rw [listCmd_of_failures env recursive methods targetURL cfg debug w clnt m 0 hnew
      (by omega) (fun j hj => hall j (by omega))]
    simp only [retryLoop, since_append]
    refine ⟨?_, trivial, ?_⟩
    · simp [listingsOf, listingsOf_append, driveEvents, listingsOf_rangeEvents, listingsOf_retryEvents,
        List.replicate_succ]
    · simp [hlast, iodine.New]

/-- C3, at a concrete input: a retry budget of two and a client that keeps failing
with connection resets. -/
theorem C3_all_transient_first_attempt_plus_max_retries_witness :
    (listingsOf ((listCmd (exEnv 2 (exClient exReset 9)) true
        (exMethods (exClient exReset 9)) "store/bucket" exConfig false exWorld).2.since
          exWorld)).length = 3 :=
  have h := C3_all_transient_first_attempt_plus_max_retries (exEnv 2 (exClient exReset 9))
    true (exMethods (exClient exReset 9)) "store/bucket" exConfig false exWorld
    (exClient exReset 9) rfl
    (fun j hj => ⟨Error.iodine exReset [("Target", "store/bucket")], by
      have hj2 : j ≤ 2 := hj
      have hj3 : j = 0 ∨ j = 1 ∨ j = 2 := by omega
      rcases hj3 with rfl | rfl | rfl <;> decide, by decide⟩)
  by rw [h.1]; rfl

/-- C3 as stated fails: with globalMaxRetryFlag = 1 and every attempt failing with a
connection reset, the driver is invoked twice, not once. -/
theorem C3_two_attempts_with_max_one :
    (∀ t, t < 9 →
        attempt (exEnv 1 (exClient exReset 9)) false (exClient exReset 9) "store/bucket" t =
          some (Error.iodine exReset [("Target", "store/bucket")])) ∧
      (exEnv 1 (exClient exReset 9)).isValidRetry
        (Error.iodine exReset [("Target", "store/bucket")]) = true ∧
      (exEnv 1 (exClient exReset 9)).globalMaxRetryFlag = 1 ∧
      (listingsOf ((doListSingleCmd (exEnv 1 (exClient exReset 9))
        (exMethods (exClient exReset 9)) "store/bucket" exConfig false exWorld).2.since
          exWorld)).length = 2 ∧
      (listingsOf ((doListSingleCmd (exEnv 1 (exClient exReset 9))
        (exMethods (exClient exReset 9)) "store/bucket" exConfig false exWorld).2.since
          exWorld)).length ≠ (exEnv 1 (exClient exReset 9)).globalMaxRetryFlag := by
  decide

/-- C4. When the first listing attempt fails with an error that is not retryable,
then whatever `globalMaxRetryFlag` is, `doListSingleCmd` / `doListCmd` invokes the
driver exactly once, prints no retry notice, does not sleep, and returns that error
wrapped by `iodine.New` (so not nil). -/
theorem C4_terminal_error_fails_at_once (env : Env) (recursive : Bool)
    (methods : clientMethods) (targetURL : String) (cfg : hostConfig) (debug : Bool)
    (w : World) (clnt : Client) (e : Error)
    (hnew : methods.getNewClient targetURL cfg env.globalDebugFlag w.clock = Except.ok clnt)
    (hfail : attempt env recursive clnt targetURL (w.clock + 1) = some e)
    (hterm : env.isValidRetry e = false) :
    (listCmd env recursive methods targetURL cfg debug w).1 = some (Error.iodine e []) ∧
      iodine.ToError (Error.iodine e []) = iodine.ToError e ∧
      listingsOf ((listCmd env recursive methods targetURL cfg debug w).2.since w) =
        [(recursive, clnt, targetURL)] ∧
      noticesOf ((listCmd env recursive methods targetURL cfg debug w).2.since w) = [] ∧
      sleepsOf ((listCmd env recursive methods targetURL cfg debug w).2.since w) = [] := by
  rw [listCmd_eq, hnew]
  simp only [hfail, retryLoop_terminal _ _ _ _ _ _ hterm]
  rw [since_append]
  refine ⟨rfl, rfl, ?_, ?_, ?_⟩
  · simp [listingsOf, driveEvents, listingsOf_rangeEvents]
  · simp [noticesOf, driveEvents, noticesOf_rangeEvents]
  · simp [sleepsOf, driveEvents, sleepsOf_rangeEvents]

/-- C4, at a concrete input: a client whose first listing is denied, with a retry
budget of five. -/
theorem C4_terminal_error_fails_at_once_witness :
    (listCmd (exEnv 5 (exClient exDenied 9)) false (exMethods (exClient exDenied 9))
        "store/bucket" exConfig false exWorld).1 =
        some (Error.iodine (Error.iodine exDenied [("Target", "store/bucket")]) []) ∧
      noticesOf ((listCmd (exEnv 5 (exClient exDenied 9)) false
        (exMethods (exClient exDenied 9)) "store/bucket" exConfig false exWorld).2.since
          exWorld) = [] :=
  have h := C4_terminal_error_fails_at_once (exEnv 5 (exClient exDenied 9)) false
    (exMethods (exClient exDenied 9)) "store/bucket" exConfig false exWorld
    (exClient exDenied 9) (Error.iodine exDenied [("Target", "store/bucket")])
    rfl (by decide) (by decide)
  ⟨h.1, h.2.2.2.1⟩

/-- C9. Whatever the attempts return and whatever `globalMaxRetryFlag` is, one call of
`doListSingleCmd` / `doListCmd` sleeps for at most 1^2 + 2^2 + ... + globalMaxRetryFlag^2
seconds in total and prints at most globalMaxRetryFlag retry notices. -/
theorem C9_sleep_and_notices_bounded (env : Env) (recursive : Bool)
    (methods : clientMethods) (targetURL : String) (cfg : hostConfig) (debug : Bool)
    (w : World) :
    totalSlept ((listCmd env recursive methods targetURL cfg debug w).2.since w) ≤
        (sumSquares env.globalMaxRetryFlag : Int) * time.Second ∧
      (noticesOf ((listCmd env recursive methods targetURL cfg debug w).2.since w)).length ≤
        env.globalMaxRetryFlag := by
  cases hnew : methods.getNewClient targetURL cfg env.globalDebugFlag w.clock with
  | error err =>
    rw [(listCmd_of_error env recursive methods targetURL cfg debug w err hnew).2]
    refine ⟨?_, by simp [noticesOf]⟩
    have h := second_nonneg
    have h2 : (0 : Int) ≤ (sumSquares env.globalMaxRetryFlag : Int) := Int.ofNat_nonneg _
    simp only [totalSlept, sleepsOf, List.map_nil, List.sum_nil]
    exact mul_nonneg h2 h
  | ok clnt =>
    obtain ⟨m, hm, heq⟩ := listCmd_of_ok env recursive methods targetURL cfg debug w clnt hnew
    rw [heq]
    constructor
    · have h1 := totalSlept_retryEvents env recursive clnt targetURL m (w.clock + 2)
      have h2 : (sumSquares m : Int) ≤ (sumSquares env.globalMaxRetryFlag : Int) := by
        exact_mod_cast sumSquares_mono hm
      have h3 := mul_le_mul_of_nonneg_right h2 second_nonneg
      have h4 : totalSlept (Event.getNewClient targetURL cfg env.globalDebugFlag ::
          (driveEvents env recursive clnt targetURL (w.clock + 1) ++
            retryEvents env recursive clnt targetURL m 0 (w.clock + 2))) =
          totalSlept (retryEvents env recursive clnt targetURL m 0 (w.clock + 2)) := by
        simp [totalSlept, sleepsOf, sleepsOf_append, driveEvents, sleepsOf_rangeEvents]
      rw [h4]
      exact le_trans h1 h3
    · simp [noticesOf, noticesOf_append, driveEvents, noticesOf_rangeEvents, noticesOf_retryEvents, hm]

/-- C10. One call of `doListSingleCmd` / `doListCmd` calls `getNewClient` exactly once,
however many retries follow; every listing attempt, the first and each retry, is made
on the client that call returned and on the same targetURL; and when `getNewClient`
fails there is no listing attempt, no retry notice and no sleep, and its error comes
back wrapped with `Target = targetURL`. -/
theorem C10_one_client_for_all_attempts (env : Env) (recursive : Bool)
    (methods : clientMethods) (targetURL : String) (cfg : hostConfig) (debug : Bool)
    (w : World) :
    newClientsOf ((listCmd env recursive methods targetURL cfg debug w).2.since w) =
        [(targetURL, cfg, env.globalDebugFlag)] ∧
      (∀ clnt, methods.getNewClient targetURL cfg env.globalDebugFlag w.clock = Except.ok clnt →
        ∃ m, m ≤ env.globalMaxRetryFlag ∧
          listingsOf ((listCmd env recursive methods targetURL cfg debug w).2.since w) =
            List.replicate (m + 1) (recursive, clnt, targetURL)) ∧
      (∀ err, methods.getNewClient targetURL cfg env.globalDebugFlag w.clock =
          Except.error err →
        (listCmd env recursive methods targetURL cfg debug w).1 =
            some (Error.iodine err [("Target", targetURL)]) ∧
          listingsOf ((listCmd env recursive methods targetURL cfg debug w).2.since w) = [] ∧
          noticesOf ((listCmd env recursive methods targetURL cfg debug w).2.since w) = [] ∧
          sleepsOf ((listCmd env recursive methods targetURL cfg debug w).2.since w) = []) := by
  refine ⟨?_, ?_, ?_⟩
  · cases hnew : methods.getNewClient targetURL cfg env.globalDebugFlag w.clock with
    | error err =>
      rw [(listCmd_of_error env recursive methods targetURL cfg debug w err hnew).2]
      rfl
    | ok clnt =>
      obtain ⟨m, _, heq⟩ := listCmd_of_ok env recursive methods targetURL cfg debug w clnt hnew
      rw [heq]
      simp [newClientsOf, newClientsOf_append, driveEvents, newClientsOf_rangeEvents,
        newClientsOf_retryEvents]
  · intro clnt hnew
    obtain ⟨m, hm, heq⟩ := listCmd_of_ok env recursive methods targetURL cfg debug w clnt hnew
    refine ⟨m, hm, ?_⟩
    rw [heq]
    simp [listingsOf, listingsOf_append, driveEvents, listingsOf_rangeEvents, listingsOf_retryEvents,
      List.replicate_succ]
  · intro err hnew
    obtain ⟨h1, h2⟩ := listCmd_of_error env recursive methods targetURL cfg debug w err hnew
    rw [h2]
    exact ⟨h1, rfl, rfl, rfl⟩

/-! ## Claims about the formatter -/

theorem isDir_iff_testBit (m : Nat) : FileMode.IsDir m = true ↔ m.testBit 31 = true := by
  unfold FileMode.IsDir os.ModeDir
  constructor
  · intro h
    have hne : m &&& 2 ^ 31 ≠ 0 := by simpa using h
    obtain ⟨i, hi⟩ := Nat.ne_zero_implies_bit_true hne
    rw [Nat.testBit_and, Nat.testBit_two_pow, Bool.and_eq_true, decide_eq_true_eq] at hi
    obtain ⟨h1, h2⟩ := hi
    subst h2
    exact h1
  · intro h
    have hbit : (m &&& 2 ^ 31).testBit 31 = true := by
      rw [Nat.testBit_and, Nat.testBit_two_pow, h]
      simp
    have hne : m &&& 2 ^ 31 ≠ 0 := by
      intro h0
      rw [h0] at hbit
      simp at hbit
    simpa using hne

/-- A mode is never both a directory and a regular file. -/
theorem not_isRegular_of_isDir (m : Nat) (h : FileMode.IsDir m = true) :
    FileMode.IsRegular m = false := by
  have hbit := (isDir_iff_testBit m).1 h
  unfold FileMode.IsRegular
  have hne : m &&& os.ModeType ≠ 0 := by
    intro h0
    have h1 : (m &&& os.ModeType).testBit 31 = true := by
      rw [Nat.testBit_and, hbit]
      decide
    rw [h0] at h1
    simp at h1
  simpa using hne

theorem not_isDir_of_isRegular (m : Nat) (h : FileMode.IsRegular m = true) :
    FileMode.IsDir m = false := by
  cases hd : FileMode.IsDir m with
  | false => rfl
  | true =>
    rw [not_isRegular_of_isDir m hd] at h
    exact absurd h (by decide)

theorem hasSuffix_iff (s t : String) :
    strings.HasSuffix s t = true ↔ List.IsSuffix t.data s.data := by
  unfold strings.HasSuffix
  exact List.isSuffixOf_iff_suffix

theorem hasSuffix_append_slash (name : String) : strings.HasSuffix (name ++ "/") "/" = true := by
  rw [hasSuffix_iff, String.data_append]
  exact List.suffix_append _ _

theorem hasSuffix_two_of_append (name : String)
    (h : strings.HasSuffix (name ++ "/") "//" = true) : strings.HasSuffix name "/" = true := by
  rw [hasSuffix_iff, String.data_append] at h
  rw [hasSuffix_iff]
  obtain ⟨t, ht⟩ := h
  have h1 : "//".data = ['/'] ++ "/".data := rfl
  rw [h1, ← List.append_assoc] at ht
  exact ⟨t, List.append_cancel_right ht⟩

theorem hasSuffix_one_of_two (name : String) (h : strings.HasSuffix name "//" = true) :
    strings.HasSuffix name "/" = true := by
  rw [hasSuffix_iff] at h
  rw [hasSuffix_iff]
  exact List.IsSuffix.trans ⟨['/'], rfl⟩ h

/-- What `printItem` prints for a directory. -/
theorem printItem_dir (env : Env) (date v : Int) (name : String) (fileType : Nat) (w : World)
    (hd : FileMode.IsDir fileType = true) :
    (printItem env date v name fileType w).since w =
      [Event.stdout Style.Time ("[" ++ env.formatLocal date ++ "] ") false,
       Event.stdout Style.Size (padLeft6 (env.IBytes (uint64 v)) ++ " ") false,
       Event.stdout Style.Dir (if strings.HasSuffix name "/" then name else name ++ "/")
         true] := by
  have hr := not_isRegular_of_isDir fileType hd
  unfold printItem World.since
  by_cases hs : strings.HasSuffix name "/" = true <;>
    simp [hd, hr, hs, fmt.Printf, fmt.Println, World.emit]

/-- What `printItem` prints for a regular file. -/
theorem printItem_regular (env : Env) (date v : Int) (name : String) (fileType : Nat)
    (w : World) (hr : FileMode.IsRegular fileType = true) :
    (printItem env date v name fileType w).since w =
      [Event.stdout Style.Time ("[" ++ env.formatLocal date ++ "] ") false,
       Event.stdout Style.Size (padLeft6 (env.IBytes (uint64 v)) ++ " ") false,
       Event.stdout Style.File name true] := by
  have hd := not_isDir_of_isRegular fileType hr
  unfold printItem World.since
  simp [hd, hr, fmt.Printf, fmt.Println, World.emit]

/-- What `printItem` prints for an entry that is neither: no name and no newline. -/
theorem printItem_other (env : Env) (date v : Int) (name : String) (fileType : Nat)
    (w : World) (hd : FileMode.IsDir fileType = false)
    (hr : FileMode.IsRegular fileType = false) :
    (printItem env date v name fileType w).since w =
      [Event.stdout Style.Time ("[" ++ env.formatLocal date ++ "] ") false,
       Event.stdout Style.Size (padLeft6 (env.IBytes (uint64 v)) ++ " ") false] := by
  unfold printItem World.since
  simp [hd, hr, fmt.Printf, fmt.Println, World.emit]

/-- C5 (amended). For every name, `printItem` renders the name of a directory entry
ending in "/": the name itself when it already ends in "/", the name with one "/"
appended otherwise; so the rendered name ends in "//" exactly when the source name
does. The name of a regular file is rendered unchanged, nothing appended. -/
theorem C5_directory_gets_slash_file_unchanged (env : Env) (date v : Int) (name : String)
    (fileType : Nat) (w : World) :
    (FileMode.IsDir fileType = true →
      namesOf ((printItem env date v name fileType w).since w) =
          [if strings.HasSuffix name "/" then name else name ++ "/"] ∧
        strings.HasSuffix (if strings.HasSuffix name "/" then name else name ++ "/") "/" =
          true ∧
        strings.HasSuffix (if strings.HasSuffix name "/" then name else name ++ "/") "//" =
          strings.HasSuffix name "//") ∧
      (FileMode.IsRegular fileType = true →
        namesOf ((printItem env date v name fileType w).since w) = [name]) := by
  constructor
  · intro hd
    rw [printItem_dir env date v name fileType w hd]
    refine ⟨rfl, ?_, ?_⟩
    · by_cases hs : strings.HasSuffix name "/" = true
      · simp [hs]
      · simp [hs, hasSuffix_append_slash]
    · by_cases hs : strings.HasSuffix name "/" = true
      · simp [hs]
      · have h1 : strings.HasSuffix (name ++ "/") "//" = false := by
          cases h : strings.HasSuffix (name ++ "/") "//" with
          | false => rfl
          | true => exact absurd (hasSuffix_two_of_append name h) hs
        have h2 : strings.HasSuffix name "//" = false := by
          cases h : strings.HasSuffix name "//" with
          | false => rfl
          | true => exact absurd (hasSuffix_one_of_two name h) hs
        simp [hs, h1, h2]
  · intro hr
    rw [printItem_regular env date v name fileType w hr]
    rfl

/-- C5, at a concrete input: the directory `sub` is rendered `sub/`, the file `a.txt`
as it is. -/
theorem C5_directory_gets_slash_file_unchanged_witness :
    namesOf ((printItem (exEnv 5 (exClient exReset 0)) 0 0 "sub" os.ModeDir exWorld).since
        exWorld) = ["sub/"] ∧
      namesOf ((printItem (exEnv 5 (exClient exReset 0)) 0 1024 "a.txt" 0 exWorld).since
        exWorld) = ["a.txt"] :=
  ⟨((C5_directory_gets_slash_file_unchanged (exEnv 5 (exClient exReset 0)) 0 0 "sub"
      os.ModeDir exWorld).1 (by decide)).1,
    (C5_directory_gets_slash_file_unchanged (exEnv 5 (exClient exReset 0)) 0 1024 "a.txt"
      0 exWorld).2 (by decide)⟩

/-- C5 as stated fails: a directory entry named `dir//` is rendered `dir//`, which
ends in two slashes. -/
theorem C5_directory_with_two_slashes :
    FileMode.IsDir os.ModeDir = true ∧
      namesOf ((printItem (exEnv 5 (exClient exReset 0)) 0 0 "dir//" os.ModeDir
        exWorld).since exWorld) = ["dir//"] ∧
      strings.HasSuffix "dir//" "//" = true := by
  decide

theorem linesOf_printed (env : Env) (it : Item)
    (h : FileMode.IsDir it.FileType = true ∨ FileMode.IsRegular it.FileType = true) :
    linesOf (printed env it) = 1 := by
  have hp : printed env it =
      (printItem env it.Time it.Size it.Name it.FileType { clock := 0, trace := [] }).since
        { clock := 0, trace := [] } := by
    simp [printed, World.since]
  rw [hp]
  rcases h with hd | hr
  · rw [printItem_dir env _ _ _ _ _ hd]
    rfl
  · rw [printItem_regular env _ _ _ _ _ hr]
    rfl

/-- An error-free listing of directories and regular files is printed one finished
line per entry. -/
theorem driver_lines_of_dirs_and_files (env : Env) (recursive : Bool) (clnt : Client)
    (targetURL : String) (w : World)
    (hok : ∀ x ∈ channelOf clnt recursive w.clock, x.Err = none)
    (hkind : ∀ x ∈ channelOf clnt recursive w.clock,
      FileMode.IsDir x.Item.FileType = true ∨ FileMode.IsRegular x.Item.FileType = true) :
    linesOf ((driver env recursive clnt targetURL w).2.since w) =
      (channelOf clnt recursive w.clock).length := by
  rw [driver_eq]
  simp only [since_append, driveEvents, linesOf]
  generalize channelOf clnt recursive w.clock = ch at hok hkind
  unfold rangeEvents entriesBeforeError
  induction ch with
  | nil => rfl
  | cons x rest ih =>
    have hx : x.Err = none := hok x (List.mem_cons_self _ _)
    have hrest := ih (fun y hy => hok y (List.mem_cons_of_mem _ hy))
      (fun y hy => hkind y (List.mem_cons_of_mem _ hy))
    simp only [List.takeWhile_cons, hx, Option.isNone_none, if_true, List.map_cons,
      List.flatten_cons, linesOf_append, List.length_cons]
    rw [hrest, linesOf_printed env x.Item (hkind x (List.mem_cons_self _ _))]
    omega

/-- C6, the code at the failing input: an error-free listing of two entries, a
symbolic link and then a file, leaves one finished line, not two. For the link
`printItem` writes the time stamp and the size and neither a name nor a newline, so
the file's line is glued to them. -/
theorem C6_symlink_entry_prints_no_line :
    (∀ x ∈ exLinkClient.ListSingle 0, x.Err = none) ∧
      (exLinkClient.ListSingle 0).length = 2 ∧
      linesOf ((doListSingle (exEnv 5 exLinkClient) exLinkClient "store/bucket"
        exWorld).2.since exWorld) = 1 ∧
      stdoutOf ((doListSingle (exEnv 5 exLinkClient) exLinkClient "store/bucket"
        exWorld).2.since exWorld) =
        [(Style.Time, "[2015-04-01 10:00:00 UTC] ", false),
         (Style.Size, "   0 B ", false),
         (Style.Time, "[2015-04-01 10:00:00 UTC] ", false),
         (Style.Size, "1.0 KiB ", false),
         (Style.File, "a.txt", true)] := by
  decide

/-! ## Claims about runListCmd -/

theorem since_self (w : World) : w.since w = [] := by
  simp [World.since]

/-- When some argument does not resolve, the first loop of `runListCmd` ends in
`console.Fatalf`, having written to the debug log only. -/
theorem resolveArgs_error (env : Env) (config : mcConfig) (args : List String)
    (m : List (String × hostConfig)) (w : World)
    (hbad : ∃ arg, arg ∈ args ∧ resolves env config arg = false) :
    ∃ msg err,
      resolveArgs env config args m w =
        (Except.error msg, { clock := w.clock, trace := w.trace ++ [Event.debugLog err] }) := by
  induction args generalizing m with
  | nil =>
    obtain ⟨arg, harg, _⟩ := hbad
    cases harg
  | cons arg rest ih =>
    cases hu : env.getURL arg config.Aliases with
    | error err =>
      by_cases ht : (iodine.ToError err).dynType = "errUnsupportedScheme"
      · refine ⟨"Unknown type of URL [" ++ arg ++ "].\n", iodine.New (some err) [], ?_⟩
        simp [resolveArgs, hu, ht, log.Debug.Println, World.emit]
      · refine ⟨"Unable to parse argument [" ++ arg ++ "]. Reason: [" ++
          (iodine.ToError err).msg ++ "].\n", iodine.New (some err) [], ?_⟩
        simp [resolveArgs, hu, ht, log.Debug.Println, World.emit]
    | ok targetURL =>
      cases hc : env.getHostConfig targetURL with
      | error err =>
        refine ⟨"Unable to read host configuration for [" ++ targetURL ++
          "] from config file [" ++ env.mustGetMcConfigPath ++ "]. Reason: [" ++
          (iodine.ToError err).msg ++ "].\n", iodine.New (some err) [], ?_⟩
        simp [resolveArgs, hu, hc, log.Debug.Println, World.emit]
      | ok targetConfig =>
        have hrest : ∃ a, a ∈ rest ∧ resolves env config a = false := by
          obtain ⟨a, ha, hr⟩ := hbad
          rcases List.mem_cons.1 ha with rfl | ha2
          · simp [resolves, hu, hc] at hr
          · exact ⟨a, ha2, hr⟩
        obtain ⟨msg, err, h⟩ := ih (mapStore m targetURL targetConfig) hrest
        exact ⟨msg, err, by simp only [resolveArgs, hu, hc]; exact h⟩

/-- C8. When some argument fails URL resolution (`getURL`) or host-config lookup
(`getHostConfig`), `runListCmd` aborts through `console.Fatalf` before it constructs
any client, before any listing and before any call of `printItem`, so nothing is
printed for any argument. Arguments are resolved once the command is past its help
guard (lines 86-88), which is the hypothesis `hguard`. -/
theorem C8_unresolved_argument_aborts_before_listing (env : Env) (args : List String)
    (w : World)
    (hguard : args.head? ≠ some "help")
    (hbad : ∃ arg, arg ∈ args ∧
      ∀ config, env.getMcConfig = Except.ok config → resolves env config arg = false) :
    (∃ msg, (runListCmd env args w).1 = Outcome.fatal msg) ∧
      newClientsOf ((runListCmd env args w).2.since w) = [] ∧
      listingsOf ((runListCmd env args w).2.since w) = [] ∧
      stdoutOf ((runListCmd env args w).2.since w) = [] := by
  have hlen : ¬ args.length < 1 := by
    obtain ⟨arg, harg, _⟩ := hbad
    cases args with
    | nil => cases harg
    | cons a rest => simp
  cases hcfg : env.getMcConfig with
  | error err =>
    have hrun : runListCmd env args w =
        (Outcome.fatal ("Unable to read config file [" ++ env.mustGetMcConfigPath ++
          "]. Reason: [" ++ (iodine.ToError err).msg ++ "].\n"),
          { clock := w.clock,
            trace := w.trace ++ [Event.debugLog (iodine.New (some err) [])] }) := by
      simp [runListCmd, hguard, hlen, hcfg, log.Debug.Println, World.emit]
    rw [hrun]
    exact ⟨⟨_, rfl⟩, by simp [since_append, newClientsOf],
      by simp [since_append, listingsOf], by simp [since_append, stdoutOf]⟩
  | ok config =>
    obtain ⟨arg, harg, hres0⟩ := hbad
    obtain ⟨msg, err, hres⟩ := resolveArgs_error env config args [] w
      ⟨arg, harg, hres0 config hcfg⟩
    have hrun : runListCmd env args w =
        (Outcome.fatal msg,
          { clock := w.clock, trace := w.trace ++ [Event.debugLog err] }) := by
      simp [runListCmd, hguard, hlen, hcfg, hres]
    rw [hrun]
    exact ⟨⟨_, rfl⟩, by simp [since_append, newClientsOf],
      by simp [since_append, listingsOf], by simp [since_append, stdoutOf]⟩

/-- C8, at a concrete input: a good argument followed by one with an unknown host;
the run ends in `console.Fatalf` with nothing printed, the good argument included. -/
theorem C8_unresolved_argument_aborts_before_listing_witness :
    (∃ msg, (runListCmd (exEnv 5 (exClient exReset 0))
        ["store/bucket", "nosuchhost/bucket"] exWorld).1 = Outcome.fatal msg) ∧
      newClientsOf ((runListCmd (exEnv 5 (exClient exReset 0))
        ["store/bucket", "nosuchhost/bucket"] exWorld).2.since exWorld) = [] ∧
      listingsOf ((runListCmd (exEnv 5 (exClient exReset 0))
        ["store/bucket", "nosuchhost/bucket"] exWorld).2.since exWorld) = [] ∧
      stdoutOf ((runListCmd (exEnv 5 (exClient exReset 0))
        ["store/bucket", "nosuchhost/bucket"] exWorld).2.since exWorld) = [] :=
  C8_unresolved_argument_aborts_before_listing (exEnv 5 (exClient exReset 0))
    ["store/bucket", "nosuchhost/bucket"] exWorld (by decide)
    ⟨"nosuchhost/bucket", by decide, fun _ _ => rfl⟩

end Mc
